import Mathlib

/-!
Cluster inventory API: the schema of `apis/v1alpha1/cluster_types.go`.

The source file declares Go struct types, their json struct tags and their
kubebuilder validation markers.  The development below embeds

* every declared field with its tag and markers (`FieldDecl`), transcribed
  from the source,
* the way a struct value is written to and read from a JSON document under
  those tags (declaration order, `omitempty`, unknown members ignored),
* the structural schema the markers declare (required members, string length
  bounds, `int32` range, arrays validated item by item).

Types imported from `k8s.io/api` and `k8s.io/apimachinery`
(`metav1.Condition`, `corev1.Taint`, `corev1.ResourceList`,
`metav1.ObjectMeta`, `metav1.TypeMeta`) are not declared in the source; the
schema is embedded over them as parameters (`Imports`), and `Sample.imports`
models them from the description the spec gives of them.

Modelling conventions:
* a JSON document is a value tree (`JSON`); the textual layer is not modelled;
* the only numeric field of the schema is an integer, so numbers are integers;
* a Go string is a `String`, its length is counted in characters;
* a Go slice whose tag has `omitempty` is a `List`: the nil slice and the
  empty slice are written alike (the member is left out) and are both `[]`;
* `Conditions`, the one slice whose tag has no `omitempty`, is an
  `Option (List _)`: `none` is the nil slice, written `null`, and `some []`
  is the empty slice, written as an empty array;
* `int32` is an `Int` together with the range check `inInt32`;
* an object member that is `null` is validated like an absent member, and a
  repeated key counts with its last occurrence.
-/

namespace ClusterInventory

/-! ## JSON documents -/

/-- A JSON value; the members of an object keep their document order. -/
inductive JSON where
  | null : JSON
  | bool (b : Bool) : JSON
  | num (n : Int) : JSON
  | str (s : String) : JSON
  | arr (xs : List JSON) : JSON
  | obj (ms : List (String × JSON)) : JSON

/-- The members of an object. -/
abbrev Members := List (String × JSON)

/-- The value a document gives to key `k`; with a repeated key the last
occurrence counts. -/
def getMember (k : String) : Members → Option JSON
  | [] => none
  | (k', v) :: ms =>
    match getMember k ms with
    | some w => some w
    | none => if k' = k then some v else none

/-- The keys of an object, in document order. -/
def keysOf (ms : Members) : List String := ms.map Prod.fst

/-! ## Field declarations: tags and markers -/

/-- The validation markers that occur in the source. -/
inductive Marker where
  | optional : Marker
  | required : Marker
  | kubebuilderRequired : Marker
  | minLength (n : Nat) : Marker
  | maxLength (n : Nat) : Marker
  deriving DecidableEq, Repr

/-- One struct field: its Go name, the name and the `omitempty` option of its
json tag, and the markers of its comment. -/
structure FieldDecl where
  goName : String
  jsonName : String
  omitempty : Bool
  markers : List Marker
  deriving DecidableEq, Repr

namespace FieldDecl

/-- Whether the schema lists the member as required: an explicit required
marker wins, then an explicit optional marker, and a field with neither is
required exactly when its tag has no `omitempty`. -/
def isRequired (f : FieldDecl) : Bool :=
  if f.markers.contains Marker.kubebuilderRequired || f.markers.contains Marker.required then true
  else if f.markers.contains Marker.optional then false
  else !f.omitempty

/-- The declared `MinLength`, if any. -/
def minLen (f : FieldDecl) : Option Nat :=
  f.markers.findSome? fun m => match m with
    | Marker.minLength n => some n
    | _ => none

/-- The declared `MaxLength`, if any. -/
def maxLen (f : FieldDecl) : Option Nat :=
  f.markers.findSome? fun m => match m with
    | Marker.maxLength n => some n
    | _ => none

end FieldDecl

/-! ### ClusterSpec -/

def ClusterSpec.fAccessObjectRefs : FieldDecl :=
  ⟨"AccessObjectRefs", "accessObjectRef", true, [Marker.optional]⟩

def ClusterSpec.fHealthProbe : FieldDecl :=
  ⟨"HealthProbe", "healthProbe", true, [Marker.optional]⟩

def ClusterSpec.fTaints : FieldDecl :=
  ⟨"Taints", "taints", true, [Marker.optional]⟩

/-! ### HealthProbe -/

def HealthProbe.fHeartbeatIntervalSeconds : FieldDecl :=
  ⟨"HeartbeatIntervalSeconds", "heatbeatIntervalSeconds", false, []⟩

/-! ### AccessObjectRef -/

def AccessObjectRef.fType : FieldDecl :=
  ⟨"Type", "type", false, []⟩

def AccessObjectRef.fGroup : FieldDecl :=
  ⟨"Group", "group", true, [Marker.optional]⟩

def AccessObjectRef.fResource : FieldDecl :=
  ⟨"Resource", "resource", false, [Marker.kubebuilderRequired, Marker.required]⟩

def AccessObjectRef.fName : FieldDecl :=
  ⟨"Name", "name", false, [Marker.kubebuilderRequired, Marker.required]⟩

def AccessObjectRef.fNamespace : FieldDecl :=
  ⟨"Namespace", "namespace", true, [Marker.optional]⟩

/-! ### ClusterStatus -/

def ClusterStatus.fConditions : FieldDecl :=
  ⟨"Conditions", "conditions", false, []⟩

def ClusterStatus.fVersion : FieldDecl :=
  ⟨"Version", "version", true, []⟩

def ClusterStatus.fResources : FieldDecl :=
  ⟨"Resources", "resources", true, []⟩

def ClusterStatus.fProperties : FieldDecl :=
  ⟨"Properties", "properties", true, [Marker.optional]⟩

/-! ### ClusterVersion, Resources, Property -/

def ClusterVersion.fKubernetes : FieldDecl :=
  ⟨"Kubernetes", "kubernetes", true, [Marker.optional]⟩

def Resources.fCapacity : FieldDecl :=
  ⟨"Capacity", "capacity", true, [Marker.optional]⟩

def Resources.fAllocatable : FieldDecl :=
  ⟨"Allocatable", "allocatable", true, [Marker.optional]⟩

def Property.fName : FieldDecl :=
  ⟨"Name", "name", false, [Marker.maxLength 253, Marker.minLength 1]⟩

def Property.fValue : FieldDecl :=
  ⟨"Value", "value", false, [Marker.maxLength 1024, Marker.minLength 1]⟩

/-! ### Cluster (the embedded `TypeMeta` is inline and has no key of its own) -/

def Cluster.fObjectMeta : FieldDecl :=
  ⟨"ObjectMeta", "metadata", true, []⟩

def Cluster.fSpec : FieldDecl :=
  ⟨"Spec", "spec", true, [Marker.optional]⟩

def Cluster.fStatus : FieldDecl :=
  ⟨"Status", "status", true, []⟩

/-- Every field declared by `ClusterSpec`, `ClusterStatus` and their
sub-structures. -/
def schemaFields : List FieldDecl :=
  [ ClusterSpec.fAccessObjectRefs, ClusterSpec.fHealthProbe, ClusterSpec.fTaints,
    HealthProbe.fHeartbeatIntervalSeconds,
    AccessObjectRef.fType, AccessObjectRef.fGroup, AccessObjectRef.fResource,
    AccessObjectRef.fName, AccessObjectRef.fNamespace,
    ClusterStatus.fConditions, ClusterStatus.fVersion, ClusterStatus.fResources,
    ClusterStatus.fProperties,
    ClusterVersion.fKubernetes, Resources.fCapacity, Resources.fAllocatable,
    Property.fName, Property.fValue ]

/-! ### Constants -/

/-- ClusterConditionJoined means the cluster has successfully joined the control. -/
def ClusterConditionJoined : String := "Joined"

/-- ClusterConditionHealthy means the cluster is healthy. -/
def ClusterConditionHealthy : String := "Healthy"

/-! ## Records -/

structure HealthProbe where
  HeartbeatIntervalSeconds : Int
  deriving DecidableEq, Repr

/-- The Go field `Type` is written `Type_` (`Type` is reserved). -/
structure AccessObjectRef where
  Type_ : String
  Group : String
  Resource : String
  Name : String
  Namespace : String
  deriving DecidableEq, Repr

structure ClusterVersion where
  Kubernetes : String
  deriving DecidableEq, Repr

structure Property where
  Name : String
  Value : String
  deriving DecidableEq, Repr

/-- The range of a Go `int32`. -/
def inInt32 (n : Int) : Bool := decide (-2147483648 ≤ n) && decide (n ≤ 2147483647)

/-- The operations of the imported types that the schema relies on.  None of
these types is declared in the source: `Condition` is `metav1.Condition`,
`Taint` is `corev1.Taint`, `ResourceList` is `corev1.ResourceList` (a Go map),
`ObjectMeta` and `TypeMeta` are the embedded metadata of `Cluster`. -/
structure Imports where
  Condition : Type
  Taint : Type
  ResourceList : Type
  ObjectMeta : Type
  TypeMeta : Type
  /-- The `Type` field of a condition. -/
  conditionType : Condition → String
  encodeCondition : Condition → JSON
  /-- Reading a document into a fresh condition. -/
  decodeCondition : JSON → Option Condition
  /-- The schema `metav1.Condition` declares for itself. -/
  validCondition : JSON → Bool
  encodeTaint : Taint → JSON
  decodeTaint : JSON → Option Taint
  validTaint : JSON → Bool
  /-- The nil map. -/
  nilResourceList : ResourceList
  /-- A map of length 0 (what `omitempty` tests). -/
  isEmptyResourceList : ResourceList → Bool
  encodeResourceList : ResourceList → JSON
  /-- Reading a document into an existing map. -/
  decodeResourceList : ResourceList → JSON → Option ResourceList
  validResourceList : JSON → Bool
  zeroObjectMeta : ObjectMeta
  encodeObjectMeta : ObjectMeta → JSON
  /-- Reading a document into an existing `ObjectMeta`. -/
  decodeObjectMeta : ObjectMeta → JSON → Option ObjectMeta
  zeroTypeMeta : TypeMeta
  /-- The members an inline `TypeMeta` contributes to the enclosing object. -/
  typeMetaMembers : TypeMeta → Members
  /-- Reading one member of the enclosing object into the inline `TypeMeta`. -/
  decodeTypeMetaMember : TypeMeta → String → JSON → Option TypeMeta

structure ClusterSpec (I : Imports) where
  AccessObjectRefs : List AccessObjectRef
  HealthProbe : HealthProbe
  Taints : List I.Taint

structure Resources (I : Imports) where
  Capacity : I.ResourceList
  Allocatable : I.ResourceList

/-- The field `Conditions` keeps the nil slice (`none`) apart from a slice
with entries (`some cs`): its tag has no `omitempty`, so the two are written
differently. -/
structure ClusterStatus (I : Imports) where
  Conditions : Option (List I.Condition)
  Version : ClusterVersion
  Resources : Resources I
  Properties : List Property

/-- The entries of `Conditions` (none for the nil slice). -/
def ClusterStatus.conditions {I : Imports} (s : ClusterStatus I) : List I.Condition :=
  s.Conditions.getD []

structure Cluster (I : Imports) where
  TypeMeta : I.TypeMeta
  ObjectMeta : I.ObjectMeta
  Spec : ClusterSpec I
  Status : ClusterStatus I

/-! ## Writing records (struct to JSON)

Members are written in declaration order under the tag name; a member whose
tag has `omitempty` is left out when its value is empty (the empty string, 0,
a slice or map of length 0); a struct value is never empty. -/

/-- The member a field contributes to the object. -/
def member (f : FieldDecl) (isEmpty : Bool) (v : JSON) : Members :=
  if f.omitempty && isEmpty then [] else [(f.jsonName, v)]

/-- A slice as a JSON value: the nil slice is written `null`, any other slice
as the array of its items. -/
def encodeNilableSlice {α : Type} (item : α → JSON) : Option (List α) → JSON
  | none => JSON.null
  | some xs => JSON.arr (xs.map item)

def encodeHealthProbe (h : HealthProbe) : JSON :=
  JSON.obj
    (member HealthProbe.fHeartbeatIntervalSeconds (decide (h.HeartbeatIntervalSeconds = 0))
      (JSON.num h.HeartbeatIntervalSeconds))

def encodeAccessObjectRef (a : AccessObjectRef) : JSON :=
  JSON.obj
    (member AccessObjectRef.fType (decide (a.Type_ = "")) (JSON.str a.Type_)
      ++ member AccessObjectRef.fGroup (decide (a.Group = "")) (JSON.str a.Group)
      ++ member AccessObjectRef.fResource (decide (a.Resource = "")) (JSON.str a.Resource)
      ++ member AccessObjectRef.fName (decide (a.Name = "")) (JSON.str a.Name)
      ++ member AccessObjectRef.fNamespace (decide (a.Namespace = "")) (JSON.str a.Namespace))

def encodeClusterVersion (v : ClusterVersion) : JSON :=
  JSON.obj (member ClusterVersion.fKubernetes (decide (v.Kubernetes = "")) (JSON.str v.Kubernetes))

def encodeProperty (p : Property) : JSON :=
  JSON.obj
    (member Property.fName (decide (p.Name = "")) (JSON.str p.Name)
      ++ member Property.fValue (decide (p.Value = "")) (JSON.str p.Value))

def encodeClusterSpec (I : Imports) (s : ClusterSpec I) : JSON :=
  JSON.obj
    (member ClusterSpec.fAccessObjectRefs s.AccessObjectRefs.isEmpty
        (JSON.arr (s.AccessObjectRefs.map encodeAccessObjectRef))
      ++ member ClusterSpec.fHealthProbe false (encodeHealthProbe s.HealthProbe)
      ++ member ClusterSpec.fTaints s.Taints.isEmpty (JSON.arr (s.Taints.map I.encodeTaint)))

def encodeResources (I : Imports) (r : Resources I) : JSON :=
  JSON.obj
    (member Resources.fCapacity (I.isEmptyResourceList r.Capacity)
        (I.encodeResourceList r.Capacity)
      ++ member Resources.fAllocatable (I.isEmptyResourceList r.Allocatable)
        (I.encodeResourceList r.Allocatable))

def encodeClusterStatus (I : Imports) (s : ClusterStatus I) : JSON :=
  JSON.obj
    (member ClusterStatus.fConditions s.conditions.isEmpty
        (encodeNilableSlice I.encodeCondition s.Conditions)
      ++ member ClusterStatus.fVersion false (encodeClusterVersion s.Version)
      ++ member ClusterStatus.fResources false (encodeResources I s.Resources)
      ++ member ClusterStatus.fProperties s.Properties.isEmpty
        (JSON.arr (s.Properties.map encodeProperty)))

def encodeCluster (I : Imports) (c : Cluster I) : JSON :=
  JSON.obj
    (I.typeMetaMembers c.TypeMeta
      ++ member Cluster.fObjectMeta false (I.encodeObjectMeta c.ObjectMeta)
      ++ member Cluster.fSpec false (encodeClusterSpec I c.Spec)
      ++ member Cluster.fStatus false (encodeClusterStatus I c.Status))

/-! ## Reading records (JSON to struct)

A document is read into an existing value, member by member in document
order; a member whose key matches no tag is ignored; `null` leaves a string,
number or struct untouched and resets a slice; a value of the wrong JSON type
is an error.  Keys are matched exactly. -/

def decodeString (cur : String) : JSON → Option String
  | JSON.null => some cur
  | JSON.str s => some s
  | _ => none

def decodeInt32 (cur : Int) : JSON → Option Int
  | JSON.null => some cur
  | JSON.num n => if inInt32 n then some n else none
  | _ => none

/-- Reading the items of an array, in order, each into a fresh element. -/
def decodeItems {α : Type} (item : JSON → Option α) : List JSON → Option (List α)
  | [] => some []
  | j :: js =>
    match item j with
    | none => none
    | some x =>
      match decodeItems item js with
      | none => none
      | some xs => some (x :: xs)

/-- Reading an array into a slice. -/
def decodeSlice {α : Type} (item : JSON → Option α) : JSON → Option (List α)
  | JSON.null => some []
  | JSON.arr xs => decodeItems item xs
  | _ => none

/-- Reading an array into a slice, the nil slice kept apart: `null` gives the
nil slice, an array gives the slice of its items. -/
def decodeNilableSlice {α : Type} (item : JSON → Option α) : JSON → Option (Option (List α))
  | JSON.null => some none
  | JSON.arr xs => (decodeItems item xs).map some
  | _ => none

/-- Feeding the members of an object, in order, to the step of a struct. -/
def decodeMembers {α : Type} (step : α → String → JSON → Option α) : α → Members → Option α
  | cur, [] => some cur
  | cur, (k, v) :: ms =>
    match step cur k v with
    | none => none
    | some nxt => decodeMembers step nxt ms

/-- Reading an object into a struct. -/
def decodeStruct {α : Type} (step : α → String → JSON → Option α) (cur : α) : JSON → Option α
  | JSON.null => some cur
  | JSON.obj ms => decodeMembers step cur ms
  | _ => none

def HealthProbe.step (h : HealthProbe) (k : String) (v : JSON) : Option HealthProbe :=
  if k = HealthProbe.fHeartbeatIntervalSeconds.jsonName then
    (decodeInt32 h.HeartbeatIntervalSeconds v).map fun n => { h with HeartbeatIntervalSeconds := n }
  else some h

def AccessObjectRef.step (a : AccessObjectRef) (k : String) (v : JSON) : Option AccessObjectRef :=
  if k = AccessObjectRef.fType.jsonName then
    (decodeString a.Type_ v).map fun s => { a with Type_ := s }
  else if k = AccessObjectRef.fGroup.jsonName then
    (decodeString a.Group v).map fun s => { a with Group := s }
  else if k = AccessObjectRef.fResource.jsonName then
    (decodeString a.Resource v).map fun s => { a with Resource := s }
  else if k = AccessObjectRef.fName.jsonName then
    (decodeString a.Name v).map fun s => { a with Name := s }
  else if k = AccessObjectRef.fNamespace.jsonName then
    (decodeString a.Namespace v).map fun s => { a with Namespace := s }
  else some a

def ClusterVersion.step (c : ClusterVersion) (k : String) (v : JSON) : Option ClusterVersion :=
  if k = ClusterVersion.fKubernetes.jsonName then
    (decodeString c.Kubernetes v).map fun s => { c with Kubernetes := s }
  else some c

def Property.step (p : Property) (k : String) (v : JSON) : Option Property :=
  if k = Property.fName.jsonName then
    (decodeString p.Name v).map fun s => { p with Name := s }
  else if k = Property.fValue.jsonName then
    (decodeString p.Value v).map fun s => { p with Value := s }
  else some p

/-- The zero values. -/
def HealthProbe.zero : HealthProbe := ⟨0⟩

def AccessObjectRef.zero : AccessObjectRef := ⟨"", "", "", "", ""⟩

def ClusterVersion.zero : ClusterVersion := ⟨""⟩

def Property.zero : Property := ⟨"", ""⟩

def decodeHealthProbe (j : JSON) : Option HealthProbe :=
  decodeStruct HealthProbe.step HealthProbe.zero j

def decodeAccessObjectRef (j : JSON) : Option AccessObjectRef :=
  decodeStruct AccessObjectRef.step AccessObjectRef.zero j

def decodeClusterVersion (j : JSON) : Option ClusterVersion :=
  decodeStruct ClusterVersion.step ClusterVersion.zero j

def decodeProperty (j : JSON) : Option Property :=
  decodeStruct Property.step Property.zero j

def ClusterSpec.step (I : Imports) (s : ClusterSpec I) (k : String) (v : JSON) :
    Option (ClusterSpec I) :=
  if k = ClusterSpec.fAccessObjectRefs.jsonName then
    (decodeSlice decodeAccessObjectRef v).map fun xs => { s with AccessObjectRefs := xs }
  else if k = ClusterSpec.fHealthProbe.jsonName then
    (decodeStruct HealthProbe.step s.HealthProbe v).map fun h => { s with HealthProbe := h }
  else if k = ClusterSpec.fTaints.jsonName then
    (decodeSlice I.decodeTaint v).map fun xs => { s with Taints := xs }
  else some s

def Resources.step (I : Imports) (r : Resources I) (k : String) (v : JSON) :
    Option (Resources I) :=
  if k = Resources.fCapacity.jsonName then
    (I.decodeResourceList r.Capacity v).map fun m => { r with Capacity := m }
  else if k = Resources.fAllocatable.jsonName then
    (I.decodeResourceList r.Allocatable v).map fun m => { r with Allocatable := m }
  else some r

def ClusterStatus.step (I : Imports) (s : ClusterStatus I) (k : String) (v : JSON) :
    Option (ClusterStatus I) :=
  if k = ClusterStatus.fConditions.jsonName then
    (decodeNilableSlice I.decodeCondition v).map fun xs => { s with Conditions := xs }
  else if k = ClusterStatus.fVersion.jsonName then
    (decodeStruct ClusterVersion.step s.Version v).map fun c => { s with Version := c }
  else if k = ClusterStatus.fResources.jsonName then
    (decodeStruct (Resources.step I) s.Resources v).map fun r => { s with Resources := r }
  else if k = ClusterStatus.fProperties.jsonName then
    (decodeSlice decodeProperty v).map fun xs => { s with Properties := xs }
  else some s

def ClusterSpec.zero (I : Imports) : ClusterSpec I := ⟨[], HealthProbe.zero, []⟩

def Resources.zero (I : Imports) : Resources I := ⟨I.nilResourceList, I.nilResourceList⟩

def ClusterStatus.zero (I : Imports) : ClusterStatus I :=
  ⟨none, ClusterVersion.zero, Resources.zero I, []⟩

def Cluster.zero (I : Imports) : Cluster I :=
  ⟨I.zeroTypeMeta, I.zeroObjectMeta, ClusterSpec.zero I, ClusterStatus.zero I⟩

/-- The named fields of `Cluster` take their keys; every other member goes
to the inline `TypeMeta`. -/
def Cluster.step (I : Imports) (c : Cluster I) (k : String) (v : JSON) : Option (Cluster I) :=
  if k = Cluster.fObjectMeta.jsonName then
    (I.decodeObjectMeta c.ObjectMeta v).map fun m => { c with ObjectMeta := m }
  else if k = Cluster.fSpec.jsonName then
    (decodeStruct (ClusterSpec.step I) c.Spec v).map fun s => { c with Spec := s }
  else if k = Cluster.fStatus.jsonName then
    (decodeStruct (ClusterStatus.step I) c.Status v).map fun s => { c with Status := s }
  else (I.decodeTypeMetaMember c.TypeMeta k v).map fun t => { c with TypeMeta := t }

def decodeClusterSpec (I : Imports) (j : JSON) : Option (ClusterSpec I) :=
  decodeStruct (ClusterSpec.step I) (ClusterSpec.zero I) j

def decodeClusterStatus (I : Imports) (j : JSON) : Option (ClusterStatus I) :=
  decodeStruct (ClusterStatus.step I) (ClusterStatus.zero I) j

def decodeCluster (I : Imports) (j : JSON) : Option (Cluster I) :=
  decodeStruct (Cluster.step I) (Cluster.zero I) j

/-! ## The declared schema

The schema of a struct is an object schema with one property per field.  A
member that is absent, or `null`, is accepted exactly when the field is not
required; a present member must have the JSON type of the field and satisfy
the markers of the field; members with other keys are not validated. -/

/-- One property of an object schema. -/
def validField (f : FieldDecl) (validValue : JSON → Bool) (ms : Members) : Bool :=
  match getMember f.jsonName ms with
  | none => !f.isRequired
  | some JSON.null => !f.isRequired
  | some v => validValue v

/-- A string within the declared `MinLength` and `MaxLength`. -/
def validString (f : FieldDecl) : JSON → Bool
  | JSON.str s =>
    (match f.minLen with
      | some n => decide (n ≤ s.length)
      | none => true)
    && (match f.maxLen with
      | some n => decide (s.length ≤ n)
      | none => true)
  | _ => false

/-- An integer of format `int32`. -/
def validInt32 : JSON → Bool
  | JSON.num n => inInt32 n
  | _ => false

/-- An array all of whose items are valid. -/
def validArray (item : JSON → Bool) : JSON → Bool
  | JSON.arr xs => xs.all item
  | _ => false

/-- An object whose members satisfy the properties. -/
def validObject (props : Members → Bool) : JSON → Bool
  | JSON.obj ms => props ms
  | _ => false

def validHealthProbeDoc : JSON → Bool :=
  validObject fun ms =>
    validField HealthProbe.fHeartbeatIntervalSeconds validInt32 ms

def validAccessObjectRefDoc : JSON → Bool :=
  validObject fun ms =>
    validField AccessObjectRef.fType (validString AccessObjectRef.fType) ms
    && validField AccessObjectRef.fGroup (validString AccessObjectRef.fGroup) ms
    && validField AccessObjectRef.fResource (validString AccessObjectRef.fResource) ms
    && validField AccessObjectRef.fName (validString AccessObjectRef.fName) ms
    && validField AccessObjectRef.fNamespace (validString AccessObjectRef.fNamespace) ms

def validClusterVersionDoc : JSON → Bool :=
  validObject fun ms =>
    validField ClusterVersion.fKubernetes (validString ClusterVersion.fKubernetes) ms

def validPropertyDoc : JSON → Bool :=
  validObject fun ms =>
    validField Property.fName (validString Property.fName) ms
    && validField Property.fValue (validString Property.fValue) ms

def validClusterSpecDoc (I : Imports) : JSON → Bool :=
  validObject fun ms =>
    validField ClusterSpec.fAccessObjectRefs (validArray validAccessObjectRefDoc) ms
    && validField ClusterSpec.fHealthProbe validHealthProbeDoc ms
    && validField ClusterSpec.fTaints (validArray I.validTaint) ms

def validResourcesDoc (I : Imports) : JSON → Bool :=
  validObject fun ms =>
    validField Resources.fCapacity I.validResourceList ms
    && validField Resources.fAllocatable I.validResourceList ms

def validClusterStatusDoc (I : Imports) : JSON → Bool :=
  validObject fun ms =>
    validField ClusterStatus.fConditions (validArray I.validCondition) ms
    && validField ClusterStatus.fVersion validClusterVersionDoc ms
    && validField ClusterStatus.fResources (validResourcesDoc I) ms
    && validField ClusterStatus.fProperties (validArray validPropertyDoc) ms

/-! Validation of a record is validation of the document it is written to. -/

def AccessObjectRef.valid (a : AccessObjectRef) : Bool :=
  validAccessObjectRefDoc (encodeAccessObjectRef a)

def HealthProbe.valid (h : HealthProbe) : Bool :=
  validHealthProbeDoc (encodeHealthProbe h)

def Property.valid (p : Property) : Bool :=
  validPropertyDoc (encodeProperty p)

def ClusterSpec.valid (I : Imports) (s : ClusterSpec I) : Bool :=
  validClusterSpecDoc I (encodeClusterSpec I s)

def ClusterStatus.valid (I : Imports) (s : ClusterStatus I) : Bool :=
  validClusterStatusDoc I (encodeClusterStatus I s)

/-! ## The lower-camel-case convention -/

/-- The lower-camel-case form of a Go field name: the name with its first
letter in lower case. -/
def lowerCamel (goName : String) : String :=
  match goName.data with
  | [] => ""
  | c :: cs => String.mk (c.toLower :: cs)

/-- A string of `n` letters. -/
def letters (n : Nat) : String := String.mk (List.replicate n 'a')

/-! ## The imported types, modelled from the spec

The source imports these types and does not declare them; they are modelled
from the description the spec gives of them, and instantiate `Imports`. -/

namespace Sample

/-- Modelled from the spec: `metav1.Condition` is imported, not declared in
the source.  Section 3 describes a condition entry as carrying a type string,
a status (True/False/Unknown), a reason, a message and a last-transition
timestamp (here in seconds). -/
structure Condition where
  Type_ : String
  Status : String
  Reason : String
  Message : String
  LastTransitionTime : Nat
  deriving DecidableEq, Repr

/-- Modelled from the spec: `corev1.Taint` is imported; the glossary
describes a taint as a (key, value, effect) marker. -/
structure Taint where
  Key : String
  Value : String
  Effect : String
  deriving DecidableEq, Repr

/-- Modelled from the spec: `corev1.ResourceList` is imported; section 3
describes it as a mapping from resource name to quantity.  The entries are
kept in key order, a quantity is kept as its text; being a map, it has no
two entries with the same key (`wellFormedResourceList`). -/
abbrev ResourceList := List (String × String)

/-- Modelled from the spec: `metav1.ObjectMeta` is imported; section 3 names
a unique name and a resource version among the metadata. -/
structure ObjectMeta where
  Name : String
  ResourceVersion : String
  deriving DecidableEq, Repr

/-- Modelled from the spec: `metav1.TypeMeta` is imported; it identifies the
kind and API version of the persisted document. -/
structure TypeMeta where
  Kind : String
  APIVersion : String
  deriving DecidableEq, Repr

def encodeCondition (c : Condition) : JSON :=
  JSON.obj
    [("type", JSON.str c.Type_), ("status", JSON.str c.Status),
     ("lastTransitionTime", JSON.num c.LastTransitionTime),
     ("reason", JSON.str c.Reason), ("message", JSON.str c.Message)]

def Condition.step (c : Condition) (k : String) (v : JSON) : Option Condition :=
  if k = "type" then (decodeString c.Type_ v).map fun s => { c with Type_ := s }
  else if k = "status" then (decodeString c.Status v).map fun s => { c with Status := s }
  else if k = "lastTransitionTime" then
    match v with
    | JSON.null => some c
    | JSON.num n => if 0 ≤ n then some { c with LastTransitionTime := n.toNat } else none
    | _ => none
  else if k = "reason" then (decodeString c.Reason v).map fun s => { c with Reason := s }
  else if k = "message" then (decodeString c.Message v).map fun s => { c with Message := s }
  else some c

def decodeCondition (j : JSON) : Option Condition :=
  decodeStruct Condition.step ⟨"", "", "", "", 0⟩ j

/-- A condition document: a type, a status among True, False and Unknown, a
timestamp, a reason and a message. -/
def validCondition : JSON → Bool
  | JSON.obj ms =>
    (match getMember "type" ms with
      | some (JSON.str _) => true
      | _ => false)
    && (match getMember "status" ms with
      | some (JSON.str s) => decide (s = "True" ∨ s = "False" ∨ s = "Unknown")
      | _ => false)
    && (match getMember "lastTransitionTime" ms with
      | some (JSON.num n) => decide (0 ≤ n)
      | _ => false)
    && (match getMember "reason" ms with
      | some (JSON.str _) => true
      | _ => false)
    && (match getMember "message" ms with
      | some (JSON.str _) => true
      | _ => false)
  | _ => false

def encodeTaint (t : Taint) : JSON :=
  JSON.obj
    (member ⟨"Key", "key", false, []⟩ false (JSON.str t.Key)
      ++ member ⟨"Value", "value", true, []⟩ (decide (t.Value = "")) (JSON.str t.Value)
      ++ member ⟨"Effect", "effect", false, []⟩ false (JSON.str t.Effect))

def Taint.step (t : Taint) (k : String) (v : JSON) : Option Taint :=
  if k = "key" then (decodeString t.Key v).map fun s => { t with Key := s }
  else if k = "value" then (decodeString t.Value v).map fun s => { t with Value := s }
  else if k = "effect" then (decodeString t.Effect v).map fun s => { t with Effect := s }
  else some t

def decodeTaint (j : JSON) : Option Taint :=
  decodeStruct Taint.step ⟨"", "", ""⟩ j

def validTaint : JSON → Bool
  | JSON.obj ms =>
    (match getMember "key" ms with
      | some (JSON.str _) => true
      | _ => false)
    && (match getMember "value" ms with
      | none => true
      | some JSON.null => true
      | some (JSON.str _) => true
      | _ => false)
    && (match getMember "effect" ms with
      | some (JSON.str _) => true
      | _ => false)
  | _ => false

/-- A map has one entry per key. -/
def wellFormedResourceList (m : ResourceList) : Prop := (m.map Prod.fst).Nodup

def encodeResourceList (m : ResourceList) : JSON :=
  JSON.obj (m.map fun kv => (kv.1, JSON.str kv.2))

/-- Setting one key of a map. -/
def setEntry (k q : String) : ResourceList → ResourceList
  | [] => [(k, q)]
  | (k', q') :: m => if k' = k then (k, q) :: m else (k', q') :: setEntry k q m

def decodeEntries : ResourceList → Members → Option ResourceList
  | cur, [] => some cur
  | cur, (k, JSON.str q) :: ms => decodeEntries (setEntry k q cur) ms
  | _, _ :: _ => none

def decodeResourceList (cur : ResourceList) : JSON → Option ResourceList
  | JSON.null => some []
  | JSON.obj ms => decodeEntries cur ms
  | _ => none

def validResourceList : JSON → Bool
  | JSON.obj ms => ms.all fun kv =>
    match kv.2 with
    | JSON.str _ => true
    | _ => false
  | _ => false

def encodeObjectMeta (m : ObjectMeta) : JSON :=
  JSON.obj
    (member ⟨"Name", "name", true, []⟩ (decide (m.Name = "")) (JSON.str m.Name)
      ++ member ⟨"ResourceVersion", "resourceVersion", true, []⟩
        (decide (m.ResourceVersion = "")) (JSON.str m.ResourceVersion))

def ObjectMeta.step (m : ObjectMeta) (k : String) (v : JSON) : Option ObjectMeta :=
  if k = "name" then (decodeString m.Name v).map fun s => { m with Name := s }
  else if k = "resourceVersion" then
    (decodeString m.ResourceVersion v).map fun s => { m with ResourceVersion := s }
  else some m

def typeMetaMembers (t : TypeMeta) : Members :=
  member ⟨"Kind", "kind", true, []⟩ (decide (t.Kind = "")) (JSON.str t.Kind)
    ++ member ⟨"APIVersion", "apiVersion", true, []⟩ (decide (t.APIVersion = ""))
      (JSON.str t.APIVersion)

def TypeMeta.step (t : TypeMeta) (k : String) (v : JSON) : Option TypeMeta :=
  if k = "kind" then (decodeString t.Kind v).map fun s => { t with Kind := s }
  else if k = "apiVersion" then (decodeString t.APIVersion v).map fun s => { t with APIVersion := s }
  else some t

/-- The imported types, realised. -/
def imports : Imports where
  Condition := Condition
  Taint := Taint
  ResourceList := ResourceList
  ObjectMeta := ObjectMeta
  TypeMeta := TypeMeta
  conditionType := Condition.Type_
  encodeCondition := encodeCondition
  decodeCondition := decodeCondition
  validCondition := validCondition
  encodeTaint := encodeTaint
  decodeTaint := decodeTaint
  validTaint := validTaint
  nilResourceList := []
  isEmptyResourceList := List.isEmpty
  encodeResourceList := encodeResourceList
  decodeResourceList := decodeResourceList
  validResourceList := validResourceList
  zeroObjectMeta := ⟨"", ""⟩
  encodeObjectMeta := encodeObjectMeta
  decodeObjectMeta := decodeStruct ObjectMeta.step
  zeroTypeMeta := ⟨"", ""⟩
  typeMetaMembers := typeMetaMembers
  decodeTypeMetaMember := TypeMeta.step

/-! ### The condition write -/

/-- Modelled from the spec: the condition write of the status-reporting path
(sections 3 and 4.1).  The source declares only the `Conditions` field; no
function of the repository writes to it.  A write of (type, status, reason,
message) at time `now` replaces the entry of that type and updates the
transition timestamp only if the status value actually changed; a type that
is not present yet is added. -/
def setCondition (now : Nat) (ty st reason msg : String) : List Condition → List Condition
  | [] => [⟨ty, st, reason, msg, now⟩]
  | c :: cs =>
    if c.Type_ = ty then
      (if c.Status = st then ⟨ty, st, reason, msg, c.LastTransitionTime⟩
        else ⟨ty, st, reason, msg, now⟩) :: cs
    else c :: setCondition now ty st reason msg cs

/-- Modelled from the spec: a condition write applied to a `ClusterStatus`
(see `setCondition`). -/
def writeCondition (now : Nat) (ty st reason msg : String) (s : ClusterStatus imports) :
    ClusterStatus imports :=
  { s with Conditions := some (setCondition now ty st reason msg s.conditions) }

/-- The entry of a given type. -/
def findCondition (ty : String) (cs : List Condition) : Option Condition :=
  cs.find? fun c => decide (c.Type_ = ty)

/-- The number of entries of a given type. -/
def countType (ty : String) (cs : List Condition) : Nat :=
  cs.countP fun c => decide (c.Type_ = ty)

/-! ### Concrete records -/

def kubeconfigRef : AccessObjectRef :=
  ⟨"KUBECONFIG", "", "secrets", "c1-kubeconfig", "fleet-system"⟩

def joined : Condition := ⟨"Joined", "True", "Registered", "cluster joined", 1700000000⟩

def healthy : Condition := ⟨"Healthy", "True", "ProbeOK", "heartbeat ok", 1700000030⟩

def unhealthy : Condition := ⟨"Healthy", "False", "ProbeFailed", "heartbeat missed", 1700000060⟩

def custom : Condition := ⟨"Upgrading", "Unknown", "Rollout", "", 1700000090⟩

def clusterId : Property := ⟨"id.k8s.io", "c1"⟩

def fullSpec : ClusterSpec imports :=
  ⟨[kubeconfigRef, ⟨"TOKEN", "example.io", "tokens", "c1-token", ""⟩], ⟨30⟩,
   [⟨"dedicated", "gpu", "NoSchedule"⟩, ⟨"maintenance", "", "NoExecute"⟩]⟩

def fullStatus : ClusterStatus imports :=
  ⟨some [joined, healthy], ⟨"v1.29.1"⟩,
   ⟨[("cpu", "64"), ("memory", "256Gi")], [("cpu", "60"), ("memory", "240Gi")]⟩,
   [clusterId, ⟨"region", "eu-west-1"⟩, ⟨"vendor", "example"⟩]⟩

def fullCluster : Cluster imports :=
  ⟨⟨"Cluster", "v1alpha1"⟩, ⟨"c1", "42"⟩, fullSpec, fullStatus⟩

/-- A status that is accepted and has no conditions yet (the empty slice). -/
def noConditions : ClusterStatus imports :=
  ⟨some [], ⟨""⟩, ⟨[], []⟩, []⟩

/-- A status whose two conditions have the same type. -/
def twoHealthy : ClusterStatus imports :=
  ⟨some [healthy, unhealthy], ⟨""⟩, ⟨[], []⟩, []⟩

/-- A status whose two properties have the same name. -/
def twoIds : ClusterStatus imports :=
  ⟨some [joined], ⟨""⟩, ⟨[], []⟩, [clusterId, ⟨"id.k8s.io", "c2"⟩]⟩

end Sample

/-! ## Lemmas on writing and validating -/

theorem letters_length (n : Nat) : (letters n).length = n := by
  simp [letters, String.length]

theorem encodeProperty_eq (p : Property) :
    encodeProperty p = JSON.obj [("name", JSON.str p.Name), ("value", JSON.str p.Value)] := by
  simp [encodeProperty, member, Property.fName, Property.fValue]

theorem encodeHealthProbe_eq (h : HealthProbe) :
    encodeHealthProbe h
      = JSON.obj [("heatbeatIntervalSeconds", JSON.num h.HeartbeatIntervalSeconds)] := by
  simp [encodeHealthProbe, member, HealthProbe.fHeartbeatIntervalSeconds]

theorem Property_valid_iff (p : Property) :
    Property.valid p = true ↔
      (1 ≤ p.Name.length ∧ p.Name.length ≤ 253) ∧ (1 ≤ p.Value.length ∧ p.Value.length ≤ 1024) := by
  simp [Property.valid, encodeProperty_eq, validPropertyDoc, validObject, validField, getMember,
    validString, FieldDecl.minLen, FieldDecl.maxLen, Property.fName, Property.fValue,
    List.findSome?]

theorem AccessObjectRef_valid (a : AccessObjectRef) : a.valid = true := by
  by_cases hg : a.Group = "" <;> by_cases hn : a.Namespace = "" <;>
  simp [AccessObjectRef.valid, encodeAccessObjectRef, member, validAccessObjectRefDoc,
    validObject, validField, getMember, validString, FieldDecl.minLen, FieldDecl.maxLen,
    FieldDecl.isRequired,
    AccessObjectRef.fType, AccessObjectRef.fGroup, AccessObjectRef.fResource,
    AccessObjectRef.fName, AccessObjectRef.fNamespace, List.findSome?, hg, hn]

theorem HealthProbe_valid_eq (h : HealthProbe) :
    h.valid = inInt32 h.HeartbeatIntervalSeconds := by
  simp [HealthProbe.valid, encodeHealthProbe_eq, validHealthProbeDoc, validObject, validField,
    getMember, validInt32, HealthProbe.fHeartbeatIntervalSeconds]

theorem ClusterVersion_valid (v : ClusterVersion) :
    validClusterVersionDoc (encodeClusterVersion v) = true := by
  by_cases h : v.Kubernetes = "" <;>
  simp [encodeClusterVersion, member, validClusterVersionDoc, validObject, validField,
    getMember, validString, FieldDecl.minLen, FieldDecl.maxLen, FieldDecl.isRequired,
    ClusterVersion.fKubernetes, List.findSome?, h]

theorem validArray_map {α : Type} (v : JSON → Bool) (e : α → JSON) (xs : List α) :
    validArray v (JSON.arr (xs.map e)) = xs.all fun x => v (e x) := by
  induction xs with
  | nil => rfl
  | cons x xs ih =>
    simp only [validArray, List.map_cons, List.all_cons] at ih ⊢
    rw [ih]

theorem validField_required_string (f : FieldDecl) (hr : f.isRequired = true)
    (h1 : f.minLen = none) (h2 : f.maxLen = none) (ms : Members) :
    validField f (validString f) ms = true ↔ ∃ s, getMember f.jsonName ms = some (JSON.str s) := by
  unfold validField
  cases h : getMember f.jsonName ms with
  | none => simp [hr]
  | some v => cases v <;> simp [hr, validString, h1, h2]

theorem validField_optional_string (f : FieldDecl) (hr : f.isRequired = false)
    (h1 : f.minLen = none) (h2 : f.maxLen = none) (ms : Members) :
    validField f (validString f) ms = true ↔
      (getMember f.jsonName ms = none ∨ getMember f.jsonName ms = some JSON.null
        ∨ ∃ s, getMember f.jsonName ms = some (JSON.str s)) := by
  unfold validField
  cases h : getMember f.jsonName ms with
  | none => simp [hr]
  | some v => cases v <;> simp [hr, validString, h1, h2]

theorem validAccessObjectRefDoc_iff (ms : Members) :
    validAccessObjectRefDoc (JSON.obj ms) = true ↔
      (∃ s, getMember "type" ms = some (JSON.str s))
      ∧ (∃ s, getMember "resource" ms = some (JSON.str s))
      ∧ (∃ s, getMember "name" ms = some (JSON.str s))
      ∧ (getMember "group" ms = none ∨ getMember "group" ms = some JSON.null
          ∨ ∃ s, getMember "group" ms = some (JSON.str s))
      ∧ (getMember "namespace" ms = none ∨ getMember "namespace" ms = some JSON.null
          ∨ ∃ s, getMember "namespace" ms = some (JSON.str s)) := by
  simp only [validAccessObjectRefDoc, validObject, Bool.and_eq_true]
  rw [validField_required_string AccessObjectRef.fType (by decide) (by decide) (by decide),
    validField_required_string AccessObjectRef.fResource (by decide) (by decide) (by decide),
    validField_required_string AccessObjectRef.fName (by decide) (by decide) (by decide),
    validField_optional_string AccessObjectRef.fGroup (by decide) (by decide) (by decide),
    validField_optional_string AccessObjectRef.fNamespace (by decide) (by decide) (by decide)]
  simp only [AccessObjectRef.fType, AccessObjectRef.fGroup, AccessObjectRef.fResource,
    AccessObjectRef.fName, AccessObjectRef.fNamespace]
  tauto

theorem ClusterSpec_valid_eq (I : Imports) (s : ClusterSpec I) :
    ClusterSpec.valid I s
      = (inInt32 s.HealthProbe.HeartbeatIntervalSeconds
          && s.Taints.all fun t => I.validTaint (I.encodeTaint t)) := by
  have hrefs : validArray validAccessObjectRefDoc
      (JSON.arr (s.AccessObjectRefs.map encodeAccessObjectRef)) = true := by
    rw [validArray_map]
    simp only [List.all_eq_true]
    intro a _
    exact AccessObjectRef_valid a
  have hhp := HealthProbe_valid_eq s.HealthProbe
  unfold HealthProbe.valid at hhp
  rw [encodeHealthProbe_eq] at hhp
  have htaints := validArray_map I.validTaint I.encodeTaint s.Taints
  cases hr : s.AccessObjectRefs <;> cases ht : s.Taints <;>
    simp_all [ClusterSpec.valid, encodeClusterSpec, member, validClusterSpecDoc, validObject,
      validField, getMember, FieldDecl.isRequired, encodeHealthProbe_eq,
      ClusterSpec.fAccessObjectRefs, ClusterSpec.fHealthProbe, ClusterSpec.fTaints]

theorem validField_of_getMember (f : FieldDecl) (v : JSON → Bool) (ms : Members) (j : JSON)
    (h : getMember f.jsonName ms = some j) (hj : j ≠ JSON.null) :
    validField f v ms = v j := by
  unfold validField
  rw [h]
  cases j <;> simp at hj ⊢

theorem validField_of_absent (f : FieldDecl) (v : JSON → Bool) (ms : Members)
    (h : getMember f.jsonName ms = none) :
    validField f v ms = !f.isRequired := by
  unfold validField
  rw [h]

theorem ClusterStatus_valid_eq (I : Imports) (s : ClusterStatus I) :
    ClusterStatus.valid I s
      = (s.Conditions.isSome
          && (s.conditions.all fun c => I.validCondition (I.encodeCondition c))
          && validResourcesDoc I (encodeResources I s.Resources)
          && s.Properties.all Property.valid) := by
  obtain ⟨conds, ver, res, props⟩ := s
  have hv := ClusterVersion_valid ver
  have hvn : encodeClusterVersion ver ≠ JSON.null := by simp [encodeClusterVersion]
  have hrn : encodeResources I res ≠ JSON.null := by simp [encodeResources]
  unfold ClusterStatus.valid validClusterStatusDoc encodeClusterStatus validObject
  simp only []
  have hprops : validField ClusterStatus.fProperties (validArray validPropertyDoc)
      (member ClusterStatus.fConditions (ClusterStatus.conditions ⟨conds, ver, res, props⟩).isEmpty
          (encodeNilableSlice I.encodeCondition conds)
        ++ member ClusterStatus.fVersion false (encodeClusterVersion ver)
        ++ member ClusterStatus.fResources false (encodeResources I res)
        ++ member ClusterStatus.fProperties props.isEmpty (JSON.arr (props.map encodeProperty)))
      = props.all Property.valid := by
    cases props with
    | nil =>
      rw [validField_of_absent]
      · simp [FieldDecl.isRequired, ClusterStatus.fProperties]
      · simp [member, getMember, ClusterStatus.fConditions, ClusterStatus.fVersion,
          ClusterStatus.fResources, ClusterStatus.fProperties]
    | cons p ps =>
      rw [validField_of_getMember ClusterStatus.fProperties _ _
        (JSON.arr ((p :: ps).map encodeProperty)) _ (by simp), validArray_map]
      · rfl
      · simp [member, getMember, ClusterStatus.fConditions, ClusterStatus.fVersion,
          ClusterStatus.fResources, ClusterStatus.fProperties]
  have hconds : validField ClusterStatus.fConditions (validArray I.validCondition)
      (member ClusterStatus.fConditions (ClusterStatus.conditions ⟨conds, ver, res, props⟩).isEmpty
          (encodeNilableSlice I.encodeCondition conds)
        ++ member ClusterStatus.fVersion false (encodeClusterVersion ver)
        ++ member ClusterStatus.fResources false (encodeResources I res)
        ++ member ClusterStatus.fProperties props.isEmpty (JSON.arr (props.map encodeProperty)))
      = (conds.isSome
          && (conds.getD []).all fun c => I.validCondition (I.encodeCondition c)) := by
    cases conds with
    | none =>
      cases props <;>
        simp [validField, encodeNilableSlice, member, getMember, FieldDecl.isRequired,
          ClusterStatus.fConditions, ClusterStatus.fVersion, ClusterStatus.fResources,
          ClusterStatus.fProperties]
    | some cs =>
      rw [validField_of_getMember ClusterStatus.fConditions _ _
        (JSON.arr (cs.map I.encodeCondition)) _ (by simp), validArray_map]
      · simp
      cases props <;>
        simp [encodeNilableSlice, member, getMember, ClusterStatus.fConditions,
          ClusterStatus.fVersion, ClusterStatus.fResources, ClusterStatus.fProperties]
  rw [hprops, hconds,
    validField_of_getMember ClusterStatus.fVersion _ _ (encodeClusterVersion ver) _ hvn,
    validField_of_getMember ClusterStatus.fResources _ _ (encodeResources I res) _ hrn, hv,
    Bool.and_true]
  · rfl
  · cases props <;>
      simp [member, getMember, ClusterStatus.fConditions, ClusterStatus.fVersion,
        ClusterStatus.fResources, ClusterStatus.fProperties]
  · cases props <;>
      simp [member, getMember, ClusterStatus.fConditions, ClusterStatus.fVersion,
        ClusterStatus.fResources, ClusterStatus.fProperties]

/-! ## Lemmas on reading -/

theorem decodeMembers_append {α : Type} (step : α → String → JSON → Option α) (cur : α)
    (xs ys : Members) :
    decodeMembers step cur (xs ++ ys)
      = (decodeMembers step cur xs).bind fun c => decodeMembers step c ys := by
  induction xs generalizing cur with
  | nil => rfl
  | cons x xs ih =>
    obtain ⟨k, v⟩ := x
    simp only [List.cons_append, decodeMembers]
    cases step cur k v with
    | none => rfl
    | some nxt => exact ih nxt

theorem decodeItems_roundtrip {α : Type} (enc : α → JSON) (dec : JSON → Option α) (xs : List α)
    (h : ∀ x ∈ xs, dec (enc x) = some x) :
    decodeItems dec (xs.map enc) = some xs := by
  induction xs with
  | nil => rfl
  | cons x xs ih =>
    have hx := h x (List.mem_cons_self x xs)
    have hxs := ih fun y hy => h y (List.mem_cons_of_mem x hy)
    simp only [List.map_cons, decodeItems, hx, hxs]

theorem decodeSlice_roundtrip {α : Type} (enc : α → JSON) (dec : JSON → Option α) (xs : List α)
    (h : ∀ x ∈ xs, dec (enc x) = some x) :
    decodeSlice dec (JSON.arr (xs.map enc)) = some xs := by
  simp only [decodeSlice]
  exact decodeItems_roundtrip enc dec xs h

theorem decodeAccessObjectRef_roundtrip (a : AccessObjectRef) :
    decodeAccessObjectRef (encodeAccessObjectRef a) = some a := by
  obtain ⟨t, g, r, n, ns⟩ := a
  by_cases hg : g = "" <;> by_cases hn : ns = "" <;>
  simp [decodeAccessObjectRef, encodeAccessObjectRef, decodeStruct, decodeMembers, member,
    AccessObjectRef.step, AccessObjectRef.zero, decodeString,
    AccessObjectRef.fType, AccessObjectRef.fGroup, AccessObjectRef.fResource,
    AccessObjectRef.fName, AccessObjectRef.fNamespace, hg, hn]

theorem decodeProperty_roundtrip (p : Property) :
    decodeProperty (encodeProperty p) = some p := by
  obtain ⟨n, v⟩ := p
  simp [decodeProperty, encodeProperty, decodeStruct, decodeMembers, member,
    Property.step, Property.zero, decodeString, Property.fName, Property.fValue]

theorem decodeHealthProbe_roundtrip (cur h : HealthProbe)
    (hr : inInt32 h.HeartbeatIntervalSeconds = true) :
    decodeStruct HealthProbe.step cur (encodeHealthProbe h) = some h := by
  obtain ⟨n⟩ := h
  simp only at hr
  simp [encodeHealthProbe, decodeStruct, decodeMembers, member, HealthProbe.step, decodeInt32,
    HealthProbe.fHeartbeatIntervalSeconds, hr]

theorem decodeClusterVersion_roundtrip (v : ClusterVersion) :
    decodeStruct ClusterVersion.step ClusterVersion.zero (encodeClusterVersion v) = some v := by
  obtain ⟨k⟩ := v
  by_cases hk : k = "" <;>
  simp [encodeClusterVersion, decodeStruct, decodeMembers, member, ClusterVersion.step,
    ClusterVersion.zero, decodeString, ClusterVersion.fKubernetes, hk]

theorem decodeResources_roundtrip (I : Imports) (r : Resources I)
    (hc : I.isEmptyResourceList r.Capacity = false)
    (ha : I.isEmptyResourceList r.Allocatable = false)
    (hcr : I.decodeResourceList I.nilResourceList (I.encodeResourceList r.Capacity)
      = some r.Capacity)
    (har : I.decodeResourceList I.nilResourceList (I.encodeResourceList r.Allocatable)
      = some r.Allocatable) :
    decodeStruct (Resources.step I) (Resources.zero I) (encodeResources I r) = some r := by
  obtain ⟨c, a⟩ := r
  simp only at hc ha hcr har
  simp [encodeResources, decodeStruct, decodeMembers, member, Resources.step, Resources.zero,
    Resources.fCapacity, Resources.fAllocatable, hc, ha, hcr, har]

theorem decodeClusterSpec_roundtrip (I : Imports) (s : ClusterSpec I)
    (hr : inInt32 s.HealthProbe.HeartbeatIntervalSeconds = true)
    (ht : ∀ t ∈ s.Taints, I.decodeTaint (I.encodeTaint t) = some t) :
    decodeStruct (ClusterSpec.step I) (ClusterSpec.zero I) (encodeClusterSpec I s) = some s := by
  obtain ⟨refs, hp, ts⟩ := s
  simp only at hr ht
  have h1 := decodeSlice_roundtrip encodeAccessObjectRef decodeAccessObjectRef refs
    fun a _ => decodeAccessObjectRef_roundtrip a
  have h2 := decodeHealthProbe_roundtrip HealthProbe.zero hp hr
  have h3 := decodeSlice_roundtrip I.encodeTaint I.decodeTaint ts ht
  cases hrefs : refs <;> cases hts : ts <;>
    simp_all [encodeClusterSpec, decodeStruct, decodeMembers, member, ClusterSpec.step,
      ClusterSpec.zero, ClusterSpec.fAccessObjectRefs, ClusterSpec.fHealthProbe,
      ClusterSpec.fTaints]

theorem decodeNilableSlice_roundtrip {α : Type} (enc : α → JSON) (dec : JSON → Option α)
    (xs : Option (List α)) (h : ∀ x ∈ xs.getD [], dec (enc x) = some x) :
    decodeNilableSlice dec (encodeNilableSlice enc xs) = some xs := by
  cases xs with
  | none => rfl
  | some l =>
    simp only [encodeNilableSlice, decodeNilableSlice]
    rw [decodeItems_roundtrip enc dec l h]
    rfl

theorem decodeClusterStatus_roundtrip (I : Imports) (s : ClusterStatus I)
    (hc : ∀ c ∈ s.conditions, I.decodeCondition (I.encodeCondition c) = some c)
    (hce : I.isEmptyResourceList s.Resources.Capacity = false)
    (hae : I.isEmptyResourceList s.Resources.Allocatable = false)
    (hcr : I.decodeResourceList I.nilResourceList (I.encodeResourceList s.Resources.Capacity)
      = some s.Resources.Capacity)
    (har : I.decodeResourceList I.nilResourceList (I.encodeResourceList s.Resources.Allocatable)
      = some s.Resources.Allocatable) :
    decodeStruct (ClusterStatus.step I) (ClusterStatus.zero I) (encodeClusterStatus I s)
      = some s := by
  obtain ⟨cs, v, r, ps⟩ := s
  simp only [ClusterStatus.conditions] at hc hce hae hcr har
  have h1 := decodeNilableSlice_roundtrip I.encodeCondition I.decodeCondition cs hc
  have h2 := decodeClusterVersion_roundtrip v
  have h3 := decodeResources_roundtrip I r hce hae hcr har
  have h4 := decodeSlice_roundtrip encodeProperty decodeProperty ps
    fun p _ => decodeProperty_roundtrip p
  cases hps : ps <;>
    simp_all [encodeClusterStatus, decodeStruct, decodeMembers, member, ClusterStatus.step,
      ClusterStatus.zero, ClusterStatus.fConditions, ClusterStatus.fVersion,
      ClusterStatus.fResources, ClusterStatus.fProperties]

theorem decodeMembers_typeMeta (I : Imports) (c : Cluster I) (ms : Members)
    (hk : ∀ k ∈ keysOf ms, k ≠ "metadata" ∧ k ≠ "spec" ∧ k ≠ "status") :
    decodeMembers (Cluster.step I) c ms
      = (decodeMembers I.decodeTypeMetaMember c.TypeMeta ms).map
          fun t => { c with TypeMeta := t } := by
  induction ms generalizing c with
  | nil => rfl
  | cons m ms ih =>
    obtain ⟨k, v⟩ := m
    have hk0 := hk k (by simp [keysOf])
    have hks : ∀ k ∈ keysOf ms, k ≠ "metadata" ∧ k ≠ "spec" ∧ k ≠ "status" := by
      intro k' hk'
      apply hk
      simp only [keysOf, List.map_cons, List.mem_cons]
      exact Or.inr hk'
    simp only [decodeMembers, Cluster.step, Cluster.fObjectMeta, Cluster.fSpec, Cluster.fStatus,
      hk0.1, hk0.2.1, hk0.2.2, if_false]
    cases I.decodeTypeMetaMember c.TypeMeta k v with
    | none => rfl
    | some t =>
      simp only [Option.map_some']
      rw [ih _ hks]

theorem decodeCluster_roundtrip (I : Imports) (c : Cluster I)
    (hk : ∀ k ∈ keysOf (I.typeMetaMembers c.TypeMeta), k ≠ "metadata" ∧ k ≠ "spec" ∧ k ≠ "status")
    (ht : decodeMembers I.decodeTypeMetaMember I.zeroTypeMeta (I.typeMetaMembers c.TypeMeta)
      = some c.TypeMeta)
    (hm : I.decodeObjectMeta I.zeroObjectMeta (I.encodeObjectMeta c.ObjectMeta)
      = some c.ObjectMeta)
    (hspec : decodeStruct (ClusterSpec.step I) (ClusterSpec.zero I) (encodeClusterSpec I c.Spec)
      = some c.Spec)
    (hstatus : decodeStruct (ClusterStatus.step I) (ClusterStatus.zero I)
      (encodeClusterStatus I c.Status) = some c.Status) :
    decodeCluster I (encodeCluster I c) = some c := by
  obtain ⟨tm, om, sp, st⟩ := c
  simp only at hk ht hm hspec hstatus
  simp only [decodeCluster, encodeCluster, decodeStruct, List.append_assoc]
  rw [decodeMembers_append, decodeMembers_typeMeta I _ _ hk]
  simp [Cluster.zero, ht, decodeMembers, member, Cluster.step, Cluster.fObjectMeta,
    Cluster.fSpec, Cluster.fStatus, hm, hspec, hstatus]

/-! ## Lemmas on absent members -/

theorem HealthProbe_decodeMembers_absent (cur : HealthProbe) (ms : Members)
    (h : HealthProbe.fHeartbeatIntervalSeconds.jsonName ∉ keysOf ms) :
    decodeMembers HealthProbe.step cur ms = some cur := by
  induction ms with
  | nil => rfl
  | cons m ms ih =>
    obtain ⟨k, v⟩ := m
    simp only [keysOf, List.map_cons, List.mem_cons, not_or] at h
    have hk : k ≠ HealthProbe.fHeartbeatIntervalSeconds.jsonName := fun e => h.1 e.symm
    simp only [decodeMembers, HealthProbe.step, hk, if_false]
    exact ih h.2

theorem HealthProbe_zero_member (cur : HealthProbe) (hcur : cur.HeartbeatIntervalSeconds = 0)
    (pre post : Members)
    (h : HealthProbe.fHeartbeatIntervalSeconds.jsonName ∉ keysOf pre) :
    decodeStruct HealthProbe.step cur
        (JSON.obj (pre ++ (HealthProbe.fHeartbeatIntervalSeconds.jsonName, JSON.num 0) :: post))
      = decodeStruct HealthProbe.step cur (JSON.obj (pre ++ post)) := by
  obtain ⟨n⟩ := cur
  simp only at hcur
  subst hcur
  simp only [decodeStruct]
  rw [decodeMembers_append, decodeMembers_append, HealthProbe_decodeMembers_absent _ _ h]
  simp [decodeMembers, HealthProbe.step, decodeInt32, inInt32]

theorem AccessObjectRef_step_namespace (a a' : AccessObjectRef) (k : String) (v : JSON)
    (hk : k ≠ AccessObjectRef.fNamespace.jsonName) (h : AccessObjectRef.step a k v = some a') :
    a'.Namespace = a.Namespace := by
  unfold AccessObjectRef.step at h
  simp only [hk, if_false] at h
  split_ifs at h
  all_goals first
    | (simp only [Option.map_eq_some'] at h; obtain ⟨s, _, rfl⟩ := h; rfl)
    | (cases h; rfl)

theorem AccessObjectRef_step_group (a a' : AccessObjectRef) (k : String) (v : JSON)
    (hk : k ≠ AccessObjectRef.fGroup.jsonName) (h : AccessObjectRef.step a k v = some a') :
    a'.Group = a.Group := by
  unfold AccessObjectRef.step at h
  simp only [hk, if_false] at h
  split_ifs at h
  all_goals first
    | (simp only [Option.map_eq_some'] at h; obtain ⟨s, _, rfl⟩ := h; rfl)
    | (cases h; rfl)

theorem AccessObjectRef_members_namespace (cur a : AccessObjectRef) (ms : Members)
    (h : AccessObjectRef.fNamespace.jsonName ∉ keysOf ms)
    (hd : decodeMembers AccessObjectRef.step cur ms = some a) :
    a.Namespace = cur.Namespace := by
  induction ms generalizing cur with
  | nil => simp only [decodeMembers, Option.some.injEq] at hd; rw [hd]
  | cons m ms ih =>
    obtain ⟨k, v⟩ := m
    simp only [keysOf, List.map_cons, List.mem_cons, not_or] at h
    simp only [decodeMembers] at hd
    cases hs : AccessObjectRef.step cur k v with
    | none => rw [hs] at hd; cases hd
    | some nxt =>
      rw [hs] at hd
      rw [ih nxt h.2 hd]
      exact AccessObjectRef_step_namespace cur nxt k v (fun e => h.1 e.symm) hs

theorem AccessObjectRef_members_group (cur a : AccessObjectRef) (ms : Members)
    (h : AccessObjectRef.fGroup.jsonName ∉ keysOf ms)
    (hd : decodeMembers AccessObjectRef.step cur ms = some a) :
    a.Group = cur.Group := by
  induction ms generalizing cur with
  | nil => simp only [decodeMembers, Option.some.injEq] at hd; rw [hd]
  | cons m ms ih =>
    obtain ⟨k, v⟩ := m
    simp only [keysOf, List.map_cons, List.mem_cons, not_or] at h
    simp only [decodeMembers] at hd
    cases hs : AccessObjectRef.step cur k v with
    | none => rw [hs] at hd; cases hd
    | some nxt =>
      rw [hs] at hd
      rw [ih nxt h.2 hd]
      exact AccessObjectRef_step_group cur nxt k v (fun e => h.1 e.symm) hs

theorem AccessObjectRef_empty_namespace (pre post : Members)
    (h : AccessObjectRef.fNamespace.jsonName ∉ keysOf pre) :
    decodeAccessObjectRef
        (JSON.obj (pre ++ (AccessObjectRef.fNamespace.jsonName, JSON.str "") :: post))
      = decodeAccessObjectRef (JSON.obj (pre ++ post)) := by
  simp only [decodeAccessObjectRef, decodeStruct]
  rw [decodeMembers_append, decodeMembers_append]
  cases hd : decodeMembers AccessObjectRef.step AccessObjectRef.zero pre with
  | none => rfl
  | some a =>
    have hn := AccessObjectRef_members_namespace _ _ _ h hd
    obtain ⟨t, g, r, n, ns⟩ := a
    simp only [AccessObjectRef.zero] at hn
    subst hn
    simp [decodeMembers, AccessObjectRef.step, decodeString, AccessObjectRef.fType,
      AccessObjectRef.fGroup, AccessObjectRef.fResource, AccessObjectRef.fName,
      AccessObjectRef.fNamespace]

theorem AccessObjectRef_empty_group (pre post : Members)
    (h : AccessObjectRef.fGroup.jsonName ∉ keysOf pre) :
    decodeAccessObjectRef
        (JSON.obj (pre ++ (AccessObjectRef.fGroup.jsonName, JSON.str "") :: post))
      = decodeAccessObjectRef (JSON.obj (pre ++ post)) := by
  simp only [decodeAccessObjectRef, decodeStruct]
  rw [decodeMembers_append, decodeMembers_append]
  cases hd : decodeMembers AccessObjectRef.step AccessObjectRef.zero pre with
  | none => rfl
  | some a =>
    have hn := AccessObjectRef_members_group _ _ _ h hd
    obtain ⟨t, g, r, n, ns⟩ := a
    simp only [AccessObjectRef.zero] at hn
    subst hn
    simp [decodeMembers, AccessObjectRef.step, decodeString, AccessObjectRef.fType,
      AccessObjectRef.fGroup, AccessObjectRef.fResource, AccessObjectRef.fName,
      AccessObjectRef.fNamespace]

theorem ClusterSpec_step_healthProbe (I : Imports) (s t : ClusterSpec I) (k : String) (v : JSON)
    (hk : k ≠ ClusterSpec.fHealthProbe.jsonName) (h : ClusterSpec.step I s k v = some t) :
    t.HealthProbe = s.HealthProbe := by
  unfold ClusterSpec.step at h
  simp only [hk, if_false] at h
  split_ifs at h
  all_goals first
    | (simp only [Option.map_eq_some'] at h; obtain ⟨x, _, rfl⟩ := h; rfl)
    | (cases h; rfl)

theorem ClusterSpec_members_healthProbe (I : Imports) (cur s : ClusterSpec I) (ms : Members)
    (h : ClusterSpec.fHealthProbe.jsonName ∉ keysOf ms)
    (hd : decodeMembers (ClusterSpec.step I) cur ms = some s) :
    s.HealthProbe = cur.HealthProbe := by
  induction ms generalizing cur with
  | nil => simp only [decodeMembers, Option.some.injEq] at hd; rw [hd]
  | cons m ms ih =>
    obtain ⟨k, v⟩ := m
    simp only [keysOf, List.map_cons, List.mem_cons, not_or] at h
    simp only [decodeMembers] at hd
    cases hs : ClusterSpec.step I cur k v with
    | none => rw [hs] at hd; cases hd
    | some nxt =>
      rw [hs] at hd
      rw [ih nxt h.2 hd]
      exact ClusterSpec_step_healthProbe I cur nxt k v (fun e => h.1 e.symm) hs

theorem ClusterSpec_zero_heartbeat (I : Imports) (spre spost pre post : Members)
    (hs : ClusterSpec.fHealthProbe.jsonName ∉ keysOf spre)
    (h : HealthProbe.fHeartbeatIntervalSeconds.jsonName ∉ keysOf pre) :
    decodeClusterSpec I
        (JSON.obj (spre ++ (ClusterSpec.fHealthProbe.jsonName,
          JSON.obj (pre ++ (HealthProbe.fHeartbeatIntervalSeconds.jsonName, JSON.num 0) :: post))
            :: spost))
      = decodeClusterSpec I
        (JSON.obj (spre ++ (ClusterSpec.fHealthProbe.jsonName, JSON.obj (pre ++ post))
          :: spost)) := by
  simp only [decodeClusterSpec, decodeStruct]
  rw [decodeMembers_append, decodeMembers_append]
  cases hd : decodeMembers (ClusterSpec.step I) (ClusterSpec.zero I) spre with
  | none => rfl
  | some s =>
    have hz := ClusterSpec_members_healthProbe I _ _ _ hs hd
    have hz0 : s.HealthProbe.HeartbeatIntervalSeconds = 0 := by rw [hz]; rfl
    have e := HealthProbe_zero_member s.HealthProbe hz0 pre post h
    have hne : ClusterSpec.fHealthProbe.jsonName ≠ ClusterSpec.fAccessObjectRefs.jsonName := by
      decide
    simp only [Option.some_bind, decodeMembers, ClusterSpec.step, hne, if_false, if_true, e]

/-! ## Lemmas on the condition write -/

namespace Sample

theorem findCondition_setCondition (now : Nat) (ty st reason msg : String)
    (cs : List Condition) :
    findCondition ty (setCondition now ty st reason msg cs)
      = some (match findCondition ty cs with
          | some c =>
            if c.Status = st then ⟨ty, st, reason, msg, c.LastTransitionTime⟩
            else ⟨ty, st, reason, msg, now⟩
          | none => ⟨ty, st, reason, msg, now⟩) := by
  induction cs with
  | nil => simp [findCondition, setCondition]
  | cons c cs ih =>
    by_cases hc : c.Type_ = ty
    · by_cases hst : c.Status = st <;>
        simp [findCondition, setCondition, hc, hst, List.find?_cons]
    · simp only [findCondition] at ih
      simp [findCondition, setCondition, hc, List.find?_cons, ih]

theorem countType_setCondition (now : Nat) (ty st reason msg : String) (cs : List Condition) :
    countType ty (setCondition now ty st reason msg cs)
      = if countType ty cs = 0 then 1 else countType ty cs := by
  induction cs with
  | nil => simp [countType, setCondition]
  | cons c cs ih =>
    by_cases hc : c.Type_ = ty
    · by_cases hst : c.Status = st <;>
        simp [countType, setCondition, hc, hst, List.countP_cons]
    · simp only [countType] at ih
      simp [countType, setCondition, hc, List.countP_cons, ih]

theorem writeCondition_conditions (now : Nat) (ty st reason msg : String)
    (s : ClusterStatus imports) :
    (writeCondition now ty st reason msg s).conditions
      = setCondition now ty st reason msg s.conditions := rfl

/-! ## Lemmas on the modelled imported types -/

theorem decodeCondition_roundtrip (x : Condition) :
    decodeCondition (encodeCondition x) = some x := by
  obtain ⟨t, st, r, m, n⟩ := x
  simp [decodeCondition, encodeCondition, decodeStruct, decodeMembers, Condition.step,
    decodeString]

theorem decodeTaint_roundtrip (t : Taint) : decodeTaint (encodeTaint t) = some t := by
  obtain ⟨k, v, e⟩ := t
  by_cases hv : v = "" <;>
  simp [decodeTaint, encodeTaint, decodeStruct, decodeMembers, member, Taint.step,
    decodeString, hv]

theorem decodeObjectMeta_roundtrip (m : ObjectMeta) :
    decodeStruct ObjectMeta.step ⟨"", ""⟩ (encodeObjectMeta m) = some m := by
  obtain ⟨n, rv⟩ := m
  by_cases hn : n = "" <;> by_cases hr : rv = "" <;>
  simp [encodeObjectMeta, decodeStruct, decodeMembers, member, ObjectMeta.step,
    decodeString, hn, hr]

theorem decodeTypeMeta_roundtrip (t : TypeMeta) :
    decodeMembers TypeMeta.step ⟨"", ""⟩ (typeMetaMembers t) = some t := by
  obtain ⟨k, a⟩ := t
  by_cases hk : k = "" <;> by_cases ha : a = "" <;>
  simp [typeMetaMembers, decodeMembers, member, TypeMeta.step, decodeString, hk, ha]

theorem typeMetaMembers_keys (t : TypeMeta) :
    ∀ k ∈ keysOf (typeMetaMembers t), k ≠ "metadata" ∧ k ≠ "spec" ∧ k ≠ "status" := by
  obtain ⟨kd, a⟩ := t
  intro k hk
  by_cases hkd : kd = "" <;> by_cases ha : a = "" <;>
    simp [keysOf, typeMetaMembers, member, hkd, ha] at hk
  all_goals (rcases hk with rfl | rfl <;> decide)

theorem setEntry_fresh (k q : String) (m : ResourceList) (h : k ∉ m.map Prod.fst) :
    setEntry k q m = m ++ [(k, q)] := by
  induction m with
  | nil => rfl
  | cons e m ih =>
    obtain ⟨k', q'⟩ := e
    simp only [List.map_cons, List.mem_cons, not_or] at h
    have hne : k' ≠ k := fun e => h.1 e.symm
    simp only [setEntry, hne, if_false, List.cons_append, ih h.2]

theorem decodeEntries_fresh (cur m : ResourceList)
    (hm : (m.map Prod.fst).Nodup)
    (hd : ∀ k ∈ m.map Prod.fst, k ∉ cur.map Prod.fst) :
    decodeEntries cur (m.map fun kv => (kv.1, JSON.str kv.2)) = some (cur ++ m) := by
  induction m generalizing cur with
  | nil => simp [decodeEntries]
  | cons e m ih =>
    obtain ⟨k, q⟩ := e
    simp only [List.map_cons, List.nodup_cons] at hm
    have hk : k ∉ cur.map Prod.fst := hd k (by simp)
    simp only [List.map_cons, decodeEntries, setEntry_fresh k q cur hk]
    rw [ih (cur ++ [(k, q)]) hm.2]
    · simp
    · intro k' hk' hin
      simp only [List.map_append, List.map_cons, List.map_nil, List.mem_append,
        List.mem_singleton] at hin
      rcases hin with hin | rfl
      · exact hd k' (by simp only [List.map_cons, List.mem_cons]; exact Or.inr hk') hin
      · exact hm.1 hk'

theorem decodeResourceList_roundtrip (m : ResourceList) (hm : wellFormedResourceList m) :
    decodeResourceList [] (encodeResourceList m) = some m := by
  simp only [decodeResourceList, encodeResourceList]
  rw [decodeEntries_fresh [] m hm (by simp)]
  simp

end Sample


/-! ## The claims -/

/-- Claim C1, as stated, fails: an `AccessObjectRef` whose `Type`, `Resource`
or `Name` is the empty string is accepted by the declared schema (no minimum
length is declared on these fields). -/
theorem accessObjectRef_empty_fields_accepted :
    AccessObjectRef.valid ⟨"", "", "secrets", "c1-kubeconfig", "fleet-system"⟩ = true
    ∧ AccessObjectRef.valid ⟨"KUBECONFIG", "", "", "c1-kubeconfig", "fleet-system"⟩ = true
    ∧ AccessObjectRef.valid ⟨"KUBECONFIG", "", "secrets", "", "fleet-system"⟩ = true
    ∧ ¬ (∀ a : AccessObjectRef, a.valid = true → a.Type_ ≠ "" ∧ a.Resource ≠ "" ∧ a.Name ≠ "") := by
  refine ⟨by decide, by decide, by decide, ?_⟩
  intro h
  exact (h ⟨"", "", "", "", ""⟩ (by decide)).1 rfl

/-- Claim C1, amended: the schema accepts an `AccessObjectRef` document
exactly when its `type`, `resource` and `name` members are present strings
and its `group` and `namespace` members, where present and not null, are
strings; it checks presence, not non-emptiness, so every `AccessObjectRef`
value written under its json tags is accepted. -/
theorem accessObjectRef_schema_requires_presence :
    (∀ ms : Members, validAccessObjectRefDoc (JSON.obj ms) = true ↔
      (∃ s, getMember "type" ms = some (JSON.str s))
      ∧ (∃ s, getMember "resource" ms = some (JSON.str s))
      ∧ (∃ s, getMember "name" ms = some (JSON.str s))
      ∧ (getMember "group" ms = none ∨ getMember "group" ms = some JSON.null
          ∨ ∃ s, getMember "group" ms = some (JSON.str s))
      ∧ (getMember "namespace" ms = none ∨ getMember "namespace" ms = some JSON.null
          ∨ ∃ s, getMember "namespace" ms = some (JSON.str s)))
    ∧ (∀ a : AccessObjectRef, a.valid = true) :=
  ⟨validAccessObjectRefDoc_iff, AccessObjectRef_valid⟩

/-- Claim C2: a `Property` is accepted exactly when its `Name` has 1 to 253
characters and its `Value` has 1 to 1024 characters; 253 and 1024 characters
are accepted, 254 or 1025 characters, an empty `Name` and an empty `Value`
are rejected. -/
theorem property_valid_iff_length_bounds :
    (∀ p : Property, p.valid = true ↔
      (1 ≤ p.Name.length ∧ p.Name.length ≤ 253) ∧ (1 ≤ p.Value.length ∧ p.Value.length ≤ 1024))
    ∧ Property.valid ⟨letters 253, letters 1024⟩ = true
    ∧ Property.valid ⟨letters 254, letters 1024⟩ = false
    ∧ Property.valid ⟨letters 253, letters 1025⟩ = false
    ∧ Property.valid ⟨"", letters 1024⟩ = false
    ∧ Property.valid ⟨letters 253, ""⟩ = false := by
  refine ⟨Property_valid_iff, ?_, ?_, ?_, ?_, ?_⟩
  · rw [Property_valid_iff]; simp [letters_length]
  · rw [Bool.eq_false_iff, Ne, Property_valid_iff]; simp [letters_length]
  · rw [Bool.eq_false_iff, Ne, Property_valid_iff]; simp [letters_length]
  · rw [Bool.eq_false_iff, Ne, Property_valid_iff]; simp [letters_length]
  · rw [Bool.eq_false_iff, Ne, Property_valid_iff]; simp [letters_length]

/-- Claim C3: reading back the document written for a fully-populated
`Cluster` yields the same record, with every list in its original order.  The
record has non-empty `AccessObjectRefs`, `Taints`, `Conditions`, `Properties`,
`Capacity` and `Allocatable`; its heartbeat interval is an `int32` and its
two resource maps have one entry per key, as the Go types guarantee.  The
imported types are the ones modelled from the spec.  (Non-emptiness of the
four lists is the scope of the claim; the proof does not use it.) -/
theorem cluster_roundtrip (c : Cluster Sample.imports)
    (_hrefs : c.Spec.AccessObjectRefs ≠ [])
    (_htaints : c.Spec.Taints ≠ [])
    (_hconds : c.Status.conditions ≠ [])
    (_hprops : c.Status.Properties ≠ [])
    (hcap : Sample.imports.isEmptyResourceList c.Status.Resources.Capacity = false)
    (halloc : Sample.imports.isEmptyResourceList c.Status.Resources.Allocatable = false)
    (hcapkeys : Sample.wellFormedResourceList c.Status.Resources.Capacity)
    (hallockeys : Sample.wellFormedResourceList c.Status.Resources.Allocatable)
    (hint : inInt32 c.Spec.HealthProbe.HeartbeatIntervalSeconds = true) :
    decodeCluster Sample.imports (encodeCluster Sample.imports c) = some c :=
  decodeCluster_roundtrip Sample.imports c
    (Sample.typeMetaMembers_keys c.TypeMeta)
    (Sample.decodeTypeMeta_roundtrip c.TypeMeta)
    (Sample.decodeObjectMeta_roundtrip c.ObjectMeta)
    (decodeClusterSpec_roundtrip Sample.imports c.Spec hint
      fun t _ => Sample.decodeTaint_roundtrip t)
    (decodeClusterStatus_roundtrip Sample.imports c.Status
      (fun x _ => Sample.decodeCondition_roundtrip x) hcap halloc
      (Sample.decodeResourceList_roundtrip _ hcapkeys)
      (Sample.decodeResourceList_roundtrip _ hallockeys))

/-- Claim C3 at a concrete record: two access references, two taints, two
conditions, three properties, a version and both resource maps. -/
theorem cluster_roundtrip_witness :
    decodeCluster Sample.imports (encodeCluster Sample.imports Sample.fullCluster)
      = some Sample.fullCluster :=
  cluster_roundtrip Sample.fullCluster
    (List.cons_ne_nil _ _) (List.cons_ne_nil _ _) (List.cons_ne_nil _ _) (List.cons_ne_nil _ _)
    rfl rfl
    (by
      have e : (Sample.fullCluster.Status.Resources.Capacity : Sample.ResourceList)
          = [("cpu", "64"), ("memory", "256Gi")] := rfl
      rw [e]
      simp [Sample.wellFormedResourceList])
    (by
      have e : (Sample.fullCluster.Status.Resources.Allocatable : Sample.ResourceList)
          = [("cpu", "60"), ("memory", "240Gi")] := rfl
      rw [e]
      simp [Sample.wellFormedResourceList])
    (by decide)

/-- Claim C4, as stated, fails: a `ClusterStatus` whose two conditions both
have type `Healthy` is accepted by the declared schema. -/
theorem status_with_repeated_condition_type_accepted :
    ClusterStatus.valid Sample.imports Sample.twoHealthy = true
    ∧ Sample.twoHealthy.conditions.map Sample.imports.conditionType = ["Healthy", "Healthy"]
    ∧ ¬ (Sample.twoHealthy.conditions.map Sample.imports.conditionType).Nodup := by
  refine ⟨by decide, rfl, ?_⟩
  have e : Sample.twoHealthy.conditions.map Sample.imports.conditionType
      = ["Healthy", "Healthy"] := rfl
  rw [e]
  decide

/-- Claim C4, amended: the declared schema validates `Conditions` entry by
entry and compares no two entries, so it does not make the condition type
unique.  A status whose `Conditions` is the nil slice is rejected (the
required member is written `null`); a status whose `Conditions` is not nil is
accepted exactly when each of its conditions is accepted by the condition
schema and the same status with an empty `Conditions` is accepted; and a
status that repeats a condition is accepted whenever the status with that
condition once is. -/
theorem status_conditions_validated_entrywise (I : Imports) (s : ClusterStatus I) :
    ClusterStatus.valid I { s with Conditions := none } = false
    ∧ (∀ cs : List I.Condition,
        ClusterStatus.valid I { s with Conditions := some cs }
          = ((cs.all fun c => I.validCondition (I.encodeCondition c))
              && ClusterStatus.valid I { s with Conditions := some [] }))
    ∧ ∀ c : I.Condition,
        ClusterStatus.valid I { s with Conditions := some [c, c] }
          = ClusterStatus.valid I { s with Conditions := some [c] } := by
  refine ⟨?_, ?_, ?_⟩
  · rw [ClusterStatus_valid_eq]
    simp
  · intro cs
    rw [ClusterStatus_valid_eq, ClusterStatus_valid_eq]
    simp [ClusterStatus.conditions, Bool.and_assoc]
  · intro c
    rw [ClusterStatus_valid_eq, ClusterStatus_valid_eq]
    simp [ClusterStatus.conditions]

namespace Sample

/-- Claim C5, as stated, fails on two inputs.  `Healthy` is stored as True
since 1700000030: a write of Healthy=False made in that same second changes
the status and leaves `LastTransitionTime` at 1700000030.  And on a status
with two `Healthy` entries, writing Healthy=True then Healthy=False leaves
two entries of type `Healthy`. -/
theorem condition_write_needs_later_time_and_unique_type :
    (findCondition "Healthy" fullStatus.conditions = some healthy
      ∧ healthy.Status ≠ "False"
      ∧ (findCondition "Healthy"
          (writeCondition 1700000030 "Healthy" "False" "ProbeFailed" "" fullStatus).conditions).map
            Condition.Status = some "False"
      ∧ (findCondition "Healthy"
          (writeCondition 1700000030 "Healthy" "False" "ProbeFailed" "" fullStatus).conditions).map
            Condition.LastTransitionTime = some healthy.LastTransitionTime)
    ∧ countType ClusterConditionHealthy
        (writeCondition 1700000120 ClusterConditionHealthy "False" "ProbeFailed" ""
          (writeCondition 1700000090 ClusterConditionHealthy "True" "ProbeOK" ""
            twoHealthy)).conditions = 2 := by
  refine ⟨⟨by decide, by decide, by decide, by decide⟩, by decide⟩

/-- Claim C5, amended: for a write (type, status, reason, message) at time `now` whose
type is already present with a stored entry `c` whose `LastTransitionTime`
is earlier than `now`, the entry
after the write has a different `LastTransitionTime` exactly when the written
status differs from the stored one; a second write of the same (type, status)
leaves `LastTransitionTime` as the first write left it; and after writing
Healthy=True then Healthy=False on a status with at most one `Healthy` entry,
there is exactly one `Healthy` entry and its `LastTransitionTime` is the time
of the second write. -/
theorem condition_write_transition_time (s : ClusterStatus imports) (now : Nat)
    (ty st reason msg : String) :
    (∀ c : Condition, findCondition ty s.conditions = some c → c.LastTransitionTime < now →
      ∃ d : Condition,
        findCondition ty (writeCondition now ty st reason msg s).conditions = some d
        ∧ d.Status = st
        ∧ (d.LastTransitionTime ≠ c.LastTransitionTime ↔ st ≠ c.Status))
    ∧ (∀ (later : Nat) (reason2 msg2 : String),
        (findCondition ty
            (writeCondition later ty st reason2 msg2
              (writeCondition now ty st reason msg s)).conditions).map
              Condition.LastTransitionTime
          = (findCondition ty (writeCondition now ty st reason msg s).conditions).map
              Condition.LastTransitionTime)
    ∧ (countType ClusterConditionHealthy s.conditions ≤ 1 →
        ∀ (later : Nat) (reason2 msg2 : String),
          countType ClusterConditionHealthy
              (writeCondition later ClusterConditionHealthy "False" reason2 msg2
                (writeCondition now ClusterConditionHealthy "True" reason msg s)).conditions = 1
          ∧ (findCondition ClusterConditionHealthy
              (writeCondition later ClusterConditionHealthy "False" reason2 msg2
                (writeCondition now ClusterConditionHealthy "True" reason msg s)).conditions).map
                Condition.LastTransitionTime = some later) := by
  refine ⟨?_, ?_, ?_⟩
  · intro c hc hlt
    simp only [writeCondition_conditions, findCondition_setCondition, hc]
    by_cases hst : c.Status = st
    · refine ⟨_, rfl, ?_, ?_⟩
      · simp [hst]
      · simp [hst]
    · refine ⟨_, rfl, ?_, ?_⟩
      · simp [hst]
      · simp only [hst, if_false]
        constructor
        · intro _ e
          exact hst e.symm
        · intro _ e
          omega
  · intro later reason2 msg2
    simp only [writeCondition_conditions, findCondition_setCondition]
    cases findCondition ty s.conditions with
    | none => simp
    | some c => by_cases hst : c.Status = st <;> simp [hst]
  · intro hcount later reason2 msg2
    simp only [writeCondition_conditions, findCondition_setCondition, countType_setCondition]
    constructor
    · split_ifs <;> omega
    · cases findCondition ClusterConditionHealthy s.conditions with
      | none => simp
      | some c => by_cases hst : c.Status = "True" <;> simp [hst]

/-- Claim C5 at a concrete status: `Healthy` is stored as True since
1700000030; writing True again keeps that time, writing False at 1700000060
sets it, and the status has one `Healthy` entry throughout. -/
theorem condition_write_transition_time_witness :
    (∃ d : Condition,
      findCondition "Healthy"
          (writeCondition 1700000060 "Healthy" "False" "ProbeFailed" "" fullStatus).conditions
        = some d
      ∧ d.Status = "False"
      ∧ (d.LastTransitionTime ≠ healthy.LastTransitionTime ↔ "False" ≠ healthy.Status))
    ∧ (countType ClusterConditionHealthy
          (writeCondition 1700000090 ClusterConditionHealthy "False" "ProbeFailed" ""
            (writeCondition 1700000060 ClusterConditionHealthy "True" "ProbeOK" ""
              fullStatus)).conditions = 1
        ∧ (findCondition ClusterConditionHealthy
          (writeCondition 1700000090 ClusterConditionHealthy "False" "ProbeFailed" ""
            (writeCondition 1700000060 ClusterConditionHealthy "True" "ProbeOK" ""
              fullStatus)).conditions).map Condition.LastTransitionTime = some 1700000090) :=
  ⟨(condition_write_transition_time fullStatus 1700000060 "Healthy" "False" "ProbeFailed" "").1
      healthy (by decide) (by decide),
    (condition_write_transition_time fullStatus 1700000060 "Healthy" "True" "ProbeOK" "").2.2
      (by decide) 1700000090 "ProbeFailed" ""⟩

end Sample

/-- Claim C6: a `ClusterSpec` with no `AccessObjectRefs` and a heartbeat
interval of 0 is accepted, also when the document carries an explicit empty
array; acceptance of a `ClusterSpec` depends neither on the number of its
`AccessObjectRefs` nor on the interval being zero: the interval only has to
be an `int32` and the taints have to satisfy the taint schema. -/
theorem spec_without_refs_and_zero_heartbeat_accepted (I : Imports) :
    ClusterSpec.valid I ⟨[], ⟨0⟩, []⟩ = true
    ∧ validClusterSpecDoc I
        (JSON.obj [("accessObjectRef", JSON.arr []),
          ("healthProbe", JSON.obj [("heatbeatIntervalSeconds", JSON.num 0)])]) = true
    ∧ (∀ s : ClusterSpec I,
        ClusterSpec.valid I s
          = (inInt32 s.HealthProbe.HeartbeatIntervalSeconds
              && s.Taints.all fun t => I.validTaint (I.encodeTaint t)))
    ∧ (∀ (s : ClusterSpec I) (refs : List AccessObjectRef),
        ClusterSpec.valid I { s with AccessObjectRefs := refs } = ClusterSpec.valid I s)
    ∧ (∀ h : HealthProbe, h.valid = inInt32 h.HeartbeatIntervalSeconds)
    ∧ inInt32 0 = true := by
  refine ⟨?_, ?_, ClusterSpec_valid_eq I, ?_, HealthProbe_valid_eq, by decide⟩
  · rw [ClusterSpec_valid_eq]
    simp [inInt32]
  · simp [validClusterSpecDoc, validObject, validField, getMember, validArray,
      validHealthProbeDoc, validInt32, inInt32, FieldDecl.isRequired,
      ClusterSpec.fAccessObjectRefs, ClusterSpec.fHealthProbe, ClusterSpec.fTaints,
      HealthProbe.fHeartbeatIntervalSeconds]
  · intro s refs
    rw [ClusterSpec_valid_eq, ClusterSpec_valid_eq]

/-- Claim C7 evaluated on the code: of the fields of `ClusterSpec`,
`ClusterStatus` and their sub-structures, two are not keyed by the
lower-camel-case form of their name.  `AccessObjectRefs` is keyed
`accessObjectRef` and `HeartbeatIntervalSeconds` is keyed
`heatbeatIntervalSeconds`; a value written under the lower-camel-case key is
not read. -/
theorem json_keys_not_all_lower_camel :
    schemaFields.filter (fun f => decide (f.jsonName ≠ lowerCamel f.goName))
      = [ClusterSpec.fAccessObjectRefs, HealthProbe.fHeartbeatIntervalSeconds]
    ∧ ClusterSpec.fAccessObjectRefs.jsonName = "accessObjectRef"
    ∧ lowerCamel ClusterSpec.fAccessObjectRefs.goName = "accessObjectRefs"
    ∧ HealthProbe.fHeartbeatIntervalSeconds.jsonName = "heatbeatIntervalSeconds"
    ∧ lowerCamel HealthProbe.fHeartbeatIntervalSeconds.goName = "heartbeatIntervalSeconds"
    ∧ encodeHealthProbe ⟨30⟩ = JSON.obj [("heatbeatIntervalSeconds", JSON.num 30)]
    ∧ decodeHealthProbe (JSON.obj [("heartbeatIntervalSeconds", JSON.num 30)]) = some ⟨0⟩
    ∧ decodeHealthProbe (JSON.obj [("heatbeatIntervalSeconds", JSON.num 30)]) = some ⟨30⟩
    ∧ (decodeClusterSpec Sample.imports
        (JSON.obj [("accessObjectRefs", JSON.arr [encodeAccessObjectRef Sample.kubeconfigRef])])).map
          (fun s => s.AccessObjectRefs) = some []
    ∧ (decodeClusterSpec Sample.imports
        (JSON.obj [("accessObjectRef", JSON.arr [encodeAccessObjectRef Sample.kubeconfigRef])])).map
          (fun s => s.AccessObjectRefs) = some [Sample.kubeconfigRef] := by
  refine ⟨by decide, rfl, by decide, rfl, by decide, rfl, by decide, by decide,
    by decide, by decide⟩

/-- Claim C8: the two well-known condition types are `Joined` and `Healthy`,
they differ, and the schema of `Conditions` does not look at the type of an
entry: a status with one more condition is accepted exactly when that
condition satisfies the condition schema and the status with its previous
conditions (as a non-nil slice) is accepted, so types other than the two
well-known ones are admitted (here `Upgrading`). -/
theorem condition_types_well_known_and_open :
    ClusterConditionJoined = "Joined"
    ∧ ClusterConditionHealthy = "Healthy"
    ∧ ClusterConditionJoined ≠ ClusterConditionHealthy
    ∧ (∀ (I : Imports) (s : ClusterStatus I) (c : I.Condition),
        ClusterStatus.valid I { s with Conditions := some (c :: s.conditions) }
          = (I.validCondition (I.encodeCondition c)
              && ClusterStatus.valid I { s with Conditions := some s.conditions }))
    ∧ (Sample.custom.Type_ ≠ ClusterConditionJoined
        ∧ Sample.custom.Type_ ≠ ClusterConditionHealthy
        ∧ ClusterStatus.valid Sample.imports
            { Sample.fullStatus with
                Conditions := some (Sample.custom :: Sample.fullStatus.conditions) }
          = true) := by
  refine ⟨rfl, rfl, by decide, ?_, by decide, by decide, by decide⟩
  intro I s c
  rw [ClusterStatus_valid_eq, ClusterStatus_valid_eq]
  simp [ClusterStatus.conditions, Bool.and_assoc]

/-- Claim C9: the schema does not make `Property.Name` unique.  A status is
accepted exactly when each of its properties is accepted on its own and the
status without properties is accepted; the properties array is valid exactly
when each item is; and a status with two properties named `id.k8s.io`, each
within the length bounds, is accepted. -/
theorem property_names_not_unique :
    (∀ (I : Imports) (s : ClusterStatus I),
        ClusterStatus.valid I s
          = (s.Properties.all Property.valid
              && ClusterStatus.valid I { s with Properties := [] }))
    ∧ (∀ ps : List Property,
        validArray validPropertyDoc (JSON.arr (ps.map encodeProperty))
          = ps.all Property.valid)
    ∧ (ClusterStatus.valid Sample.imports Sample.twoIds = true
        ∧ Sample.twoIds.Properties.map Property.Name = ["id.k8s.io", "id.k8s.io"]
        ∧ Sample.twoIds.Properties.all Property.valid = true) := by
  refine ⟨?_, ?_, by decide, rfl, by decide⟩
  · intro I s
    rw [ClusterStatus_valid_eq, ClusterStatus_valid_eq]
    cases h0 : s.Conditions.isSome <;>
      cases h1 : s.conditions.all fun c => I.validCondition (I.encodeCondition c) <;>
      cases h2 : validResourcesDoc I (encodeResources I s.Resources) <;>
      cases h3 : s.Properties.all Property.valid <;> simp_all [ClusterStatus.conditions]
  · intro ps
    exact validArray_map validPropertyDoc encodeProperty ps

/-- Claim C10: reading does not distinguish an absent member from a zero
one.  For a `HealthProbe` document without the heartbeat key, adding the key
with value 0 anywhere gives the same record, also inside a `ClusterSpec`
document; for an `AccessObjectRef` document without the `namespace` (or
`group`) key, adding the key with the empty string gives the same record. -/
theorem absent_member_reads_as_zero (pre post : Members) :
    (HealthProbe.fHeartbeatIntervalSeconds.jsonName ∉ keysOf (pre ++ post) →
      decodeHealthProbe
          (JSON.obj (pre ++ (HealthProbe.fHeartbeatIntervalSeconds.jsonName, JSON.num 0) :: post))
        = decodeHealthProbe (JSON.obj (pre ++ post)))
    ∧ (HealthProbe.fHeartbeatIntervalSeconds.jsonName ∉ keysOf (pre ++ post) →
      ∀ (I : Imports) (before after : Members),
        ClusterSpec.fHealthProbe.jsonName ∉ keysOf (before ++ after) →
        decodeClusterSpec I
            (JSON.obj (before ++ (ClusterSpec.fHealthProbe.jsonName,
              JSON.obj (pre ++ (HealthProbe.fHeartbeatIntervalSeconds.jsonName, JSON.num 0)
                :: post)) :: after))
          = decodeClusterSpec I
            (JSON.obj (before ++ (ClusterSpec.fHealthProbe.jsonName, JSON.obj (pre ++ post))
              :: after)))
    ∧ (AccessObjectRef.fNamespace.jsonName ∉ keysOf (pre ++ post) →
      decodeAccessObjectRef
          (JSON.obj (pre ++ (AccessObjectRef.fNamespace.jsonName, JSON.str "") :: post))
        = decodeAccessObjectRef (JSON.obj (pre ++ post)))
    ∧ (AccessObjectRef.fGroup.jsonName ∉ keysOf (pre ++ post) →
      decodeAccessObjectRef
          (JSON.obj (pre ++ (AccessObjectRef.fGroup.jsonName, JSON.str "") :: post))
        = decodeAccessObjectRef (JSON.obj (pre ++ post))) := by
  have hpre : ∀ k : String, k ∉ keysOf (pre ++ post) → k ∉ keysOf pre := by
    intro k hk hin
    apply hk
    simp only [keysOf, List.map_append, List.mem_append]
    exact Or.inl hin
  refine ⟨?_, ?_, ?_, ?_⟩
  · intro h
    exact HealthProbe_zero_member HealthProbe.zero rfl pre post (hpre _ h)
  · intro h I before after hb
    have hbefore : ClusterSpec.fHealthProbe.jsonName ∉ keysOf before := by
      intro hin
      apply hb
      simp only [keysOf, List.map_append, List.mem_append]
      exact Or.inl hin
    exact ClusterSpec_zero_heartbeat I before after pre post hbefore (hpre _ h)
  · intro h
    exact AccessObjectRef_empty_namespace pre post (hpre _ h)
  · intro h
    exact AccessObjectRef_empty_group pre post (hpre _ h)

/-- Claim C10 at concrete documents: a probe without the heartbeat key, on
its own and inside a spec document, and a reference without `namespace` and
`group`. -/
theorem absent_member_reads_as_zero_witness :
    decodeHealthProbe (JSON.obj [("heatbeatIntervalSeconds", JSON.num 0)])
      = decodeHealthProbe (JSON.obj [])
    ∧ decodeClusterSpec Sample.imports
        (JSON.obj [("healthProbe", JSON.obj [("heatbeatIntervalSeconds", JSON.num 0)]),
          ("taints", JSON.arr [])])
      = decodeClusterSpec Sample.imports
        (JSON.obj [("healthProbe", JSON.obj []), ("taints", JSON.arr [])])
    ∧ decodeAccessObjectRef
        (JSON.obj [("type", JSON.str "KUBECONFIG"), ("namespace", JSON.str ""),
          ("resource", JSON.str "secrets"), ("name", JSON.str "c1-kubeconfig")])
      = decodeAccessObjectRef
        (JSON.obj [("type", JSON.str "KUBECONFIG"),
          ("resource", JSON.str "secrets"), ("name", JSON.str "c1-kubeconfig")])
    ∧ decodeAccessObjectRef
        (JSON.obj [("type", JSON.str "KUBECONFIG"), ("group", JSON.str ""),
          ("resource", JSON.str "secrets"), ("name", JSON.str "c1-kubeconfig")])
      = decodeAccessObjectRef
        (JSON.obj [("type", JSON.str "KUBECONFIG"),
          ("resource", JSON.str "secrets"), ("name", JSON.str "c1-kubeconfig")]) :=
  ⟨(absent_member_reads_as_zero [] []).1 (by decide),
    (absent_member_reads_as_zero [] []).2.1 (by decide) Sample.imports []
      [("taints", JSON.arr [])] (by decide),
    (absent_member_reads_as_zero [("type", JSON.str "KUBECONFIG")]
      [("resource", JSON.str "secrets"), ("name", JSON.str "c1-kubeconfig")]).2.2.1 (by decide),
    (absent_member_reads_as_zero [("type", JSON.str "KUBECONFIG")]
      [("resource", JSON.str "secrets"), ("name", JSON.str "c1-kubeconfig")]).2.2.2 (by decide)⟩

end ClusterInventory
